import Mathlib

/-!
Shallow embedding of `app/mealie-backup.py`: a single-pass script that
health-checks a Mealie server, deletes its existing backups, creates a
fresh one, fetches a download token, downloads the artifact and uploads
it to a WebDAV target.  Every network call is modelled by the outcome the
surrounding Python code can observe (a decoded response, or the
`requests.RequestException` the call site catches), and every function
additionally returns the list of requests it issued, so that trace and
abort properties of the orchestrator can be stated.
-/

namespace MealieBackup

/-- One backup descriptor as reported by the Mealie API: a JSON mapping
the script consults only for its optional `name` field
(`backup.get('name')`, line 206). -/
structure BackupDescriptor where
  name : Option String
deriving Repr, DecidableEq

/-- The JSON body answered by the backups listing endpoint: a mapping
that may carry an `imports` list.  `imports = none` models a mapping
without that key — in particular the `{}` sentinel that
`get_local_backups` answers on failure (line 161). -/
structure BackupsJson where
  imports : Option (List BackupDescriptor)
deriving Repr, DecidableEq

/-- Outcome of one HTTP request as the call site observes it: the decoded
response, or a `requests.RequestException` (transport error, timeout, or
an error status raised by `raise_for_status`). -/
inductive ReqOutcome (α : Type) where
  | ok (v : α)
  | exn
deriving Repr, DecidableEq

/-- A Python exception that no handler of the script catches: it unwinds
the interpreter, which then exits with status 1. -/
inductive PyError where
  | keyError
  | typeError
deriving Repr, DecidableEq

/-- The network requests the script can issue, recorded in traces. -/
inductive Op where
  | healthCheck
  | listBackups
  | deleteBackup (name : String)
  | createPost
  | tokenFetch (name : String)
  | downloadGet (token : String)
  | uploadPut
deriving Repr, DecidableEq

/-- Python truthiness of a `None`-or-`str` value: `None` and `""` are
falsy, every other string truthy. -/
def pytruthy : Option String → Bool
  | none => false
  | some s => if s = "" then false else true

/-- `l` with every leading and trailing copy of `c` removed, at the
character-list level: the semantics of Python `str.strip(c)` for a
one-character argument. -/
def stripChars (c : Char) (l : List Char) : List Char :=
  ((l.dropWhile (· == c)).reverse.dropWhile (· == c)).reverse

/-- Python `s.strip(c)`. -/
def pystrip (c : Char) (s : String) : String :=
  String.mk (stripChars c s.data)

/-- Python `'/'.join(parts)`. -/
def joinSlash : List String → String
  | [] => ""
  | [s] => s
  | s :: rest => s ++ "/" ++ joinSlash rest

/-- The loop body of `build_url` (lines 103-105): `if part:` skips falsy
parts (`None` and `""`), every other part is kept stripped of leading and
trailing slashes. -/
def cleanPart : Option String → Option String
  | none => none
  | some s => if s = "" then none else some (pystrip '/' s)

/-- `build_url(*parts)` (line 95): with no parts the empty string;
otherwise the kept parts (see `cleanPart`) are joined with single
slashes.  A `None` argument is modelled by `none`. -/
def build_url (parts : List (Option String)) : String :=
  if parts.isEmpty then ""
  else joinSlash (parts.filterMap cleanPart)

/-- `health_check(url)` (line 111): one GET; `true` on a non-error
response, `false` when the request or `raise_for_status` raises — the
exception is caught at this call site. -/
def health_check (resp : ReqOutcome Unit) : List Op × Bool :=
  ([Op.healthCheck],
    match resp with
    | .ok _ => true
    | .exn => false)

/-- `get_local_backups(url)` (line 139): one GET; the decoded JSON on
success, and on failure the caught exception is logged and the `{}`
sentinel — a mapping with no keys at all — is answered (line 161). -/
def get_local_backups (resp : ReqOutcome BackupsJson) : List Op × BackupsJson :=
  ([Op.listBackups],
    match resp with
    | .ok b => b
    | .exn => ⟨none⟩)

/-- `delete_backup(url, backup_name)` (line 164): one DELETE request; a
`RequestException` is caught and only logged, so the call returns
normally whatever `outcome` is. -/
def delete_backup (backup_name : String) (outcome : ReqOutcome Unit) : List Op :=
  match outcome with
  | .ok _ => [Op.deleteBackup backup_name]
  | .exn => [Op.deleteBackup backup_name]

/-- The `for backup in imports` loop of `delete_local_backups`
(lines 205-208): one `delete_backup` call per descriptor whose `name`
field is truthy; the others are skipped. -/
def delete_loop (outcomes : String → ReqOutcome Unit) :
    List BackupDescriptor → List Op
  | [] => []
  | b :: rest =>
    match b.name with
    | some n =>
      if n = "" then delete_loop outcomes rest
      else delete_backup n (outcomes n) ++ delete_loop outcomes rest
    | none => delete_loop outcomes rest

/-- `delete_local_backups(url)` (line 188): lists the backups, then
prints `len(backups['imports'])` (line 203) — a bare `['imports']`
subscript that raises `KeyError` whenever the mapping has no `imports`
key, in particular on the `{}` sentinel of a failed listing — and then
deletes every truthy-named descriptor of `backups.get('imports', [])`. -/
def delete_local_backups (listing : ReqOutcome BackupsJson)
    (outcomes : String → ReqOutcome Unit) : List Op × Except PyError Unit :=
  let r := get_local_backups listing
  match r.2.imports with
  | none => (r.1, .error .keyError)
  | some imports => (r.1 ++ delete_loop outcomes imports, .ok ())

/-- `create_backup(url)` (line 213): POST, then re-list and answer
`imports[0].get('name') if imports else None`.  `None` when the POST
raises — the `except` block catches only the POST, because
`get_local_backups` already catches its own failures — and `None` when
the re-listed `imports` is missing or empty. -/
def create_backup (post : ReqOutcome Unit) (relisting : ReqOutcome BackupsJson) :
    List Op × Option String :=
  match post with
  | .exn => ([Op.createPost], none)
  | .ok _ =>
    let r := get_local_backups relisting
    let imports := r.2.imports.getD []
    (Op.createPost :: r.1,
      match imports with
      | [] => none
      | b :: _ => b.name)

/-- `get_backup_token(backup_name)` (line 241): one GET; the `fileToken`
field of the decoded JSON is answered when truthy, `None` when the field
is absent or falsy, and `None` when the request raises.  `resp` carries
that optional field. -/
def get_backup_token (backup_name : String) (resp : ReqOutcome (Option String)) :
    List Op × Option String :=
  ([Op.tokenFetch backup_name],
    match resp with
    | .exn => none
    | .ok file_token => if pytruthy file_token then file_token else none)

/-- The response fields `get_backup_file` consults: the optional
`Content-Disposition` header (the body itself is only written to disk). -/
structure DownloadResp where
  contentDisposition : Option String
deriving Repr, DecidableEq

/-- Python `str.split(sep)` for a non-empty separator, over character
lists: the pieces between non-overlapping occurrences of `sep`, scanned
left to right.  `fuel` only bounds the recursion; with `fuel ≥ l.length`
it is never exhausted, since every step consumes at least one
character. -/
def splitAux (sep : List Char) : Nat → List Char → List (List Char)
  | _, [] => [[]]
  | 0, l => [l]
  | fuel + 1, c :: rest =>
    if sep.isPrefixOf (c :: rest) then
      [] :: splitAux sep fuel (rest.drop (sep.length - 1))
    else
      match splitAux sep fuel rest with
      | [] => [[c]]
      | p :: ps => (c :: p) :: ps

/-- Python `s.split(sep)` for a non-empty separator. -/
def pysplit (sep : List Char) (l : List Char) : List (List Char) :=
  splitAux sep l.length l

/-- Python `'filename=' in cd` followed by
`cd.split('filename=')[1].strip('"')` (line 295): the separator occurs
in `cd` exactly when the split has more than one piece. -/
def filenameFromHeader (cd : String) : Option String :=
  let pieces := pysplit "filename=".data cd.data
  if pieces.length > 1 then some (String.mk (stripChars '"' (pieces.getD 1 [])))
  else none

/-- `get_backup_file(file_token)` (line 271): the very first statement
computes `mealie.download_url + file_token`; with `file_token = None`
that concatenation raises `TypeError`, which the `except
requests.RequestException` clause does not catch.  With a real token one
GET is issued; on success the filename comes from the
`Content-Disposition` header when present and non-empty, else it is
synthesized from the timestamp `now`, and `(filename, /tmp/filename)` is
answered; a `RequestException` is caught and `None` is answered. -/
def get_backup_file (file_token : Option String) (resp : ReqOutcome DownloadResp)
    (now : String) : List Op × Except PyError (Option (String × String)) :=
  match file_token with
  | none => ([], .error .typeError)
  | some tok =>
    ([Op.downloadGet tok],
      match resp with
      | .exn => .ok none
      | .ok r =>
        let fromHeader := (r.contentDisposition.bind filenameFromHeader).getD ""
        let filename :=
          if fromHeader = "" then "mealie_" ++ now ++ ".zip" else fromHeader
        .ok (some (filename, "/tmp/" ++ filename)))

/-- Outcome of the WebDAV PUT attempt, by the handler of
`upload_file_webdav` that would observe it: a response bearing a status
code, or one of the caught exception classes (`Timeout`,
`ConnectionError`, `RequestException`, `FileNotFoundError` from `open`,
or any other `Exception`). -/
inductive PutOutcome where
  | status (code : Nat)
  | timeout
  | connectionError
  | requestExn
  | fileMissing
  | otherExn
deriving Repr, DecidableEq

/-- `upload_file_webdav(nextcloud, filename, local_path)` (line 315):
when `os.path.exists(local_path)` fails the function answers `false`
before any request is attempted; when `open` raises `FileNotFoundError`
no PUT is issued either; otherwise one PUT is issued and the answer is
`true` exactly on status 200, 201 or 204 — every caught exception class
collapses to `false`. -/
def upload_file_webdav (localFileExists : Bool) (put : PutOutcome) :
    List Op × Bool :=
  if !localFileExists then ([], false)
  else
    match put with
    | .fileMissing => ([], false)
    | .status code =>
      ([Op.uploadPut], decide (code = 200 ∨ code = 201 ∨ code = 204))
    | _ => ([Op.uploadPut], false)

/-- One run's environment: the outcome every external interaction of the
script would have.  `authToken` is the `MEALIE_AUTH_TOKEN` secret
(`none` when the secret file is absent), `listing` the delete-phase
listing, `relisting` the listing `create_backup` performs after its
POST, `now` the timestamp used for a synthesized filename. -/
structure Env where
  authToken : Option String
  health : ReqOutcome Unit
  listing : ReqOutcome BackupsJson
  createPost : ReqOutcome Unit
  relisting : ReqOutcome BackupsJson
  tokenResp : ReqOutcome (Option String)
  downloadResp : ReqOutcome DownloadResp
  now : String
  localFileExists : Bool
  put : PutOutcome
  deleteOutcomes : String → ReqOutcome Unit

/-- The `__main__` block (lines 377-402): the requests issued in order,
and whether the interpreter ended normally (`.ok` — the script never
calls `sys.exit`, so this is exit status 0) or died on an uncaught
exception (`.error`, exit status 1).  Note that the token answered by
`get_backup_token` is passed to `get_backup_file` without any check
(lines 390-391). -/
def main_run (env : Env) : List Op × Except PyError Unit :=
  if !pytruthy env.authToken then
    ([], .ok ())
  else
    let h := health_check env.health
    if !h.2 then (h.1, .ok ())
    else
      let d := delete_local_backups env.listing env.deleteOutcomes
      match d.2 with
      | .error e => (h.1 ++ d.1, .error e)
      | .ok _ =>
        let c := create_backup env.createPost env.relisting
        let ops₀ := h.1 ++ d.1 ++ c.1
        match c.2 with
        | none => (ops₀, .ok ())
        | some created =>
          if created = "" then (ops₀, .ok ())
          else
            let t := get_backup_token created env.tokenResp
            let g := get_backup_file t.2 env.downloadResp env.now
            match g.2 with
            | .error e => (ops₀ ++ t.1 ++ g.1, .error e)
            | .ok none => (ops₀ ++ t.1 ++ g.1, .ok ())
            | .ok (some _) =>
              let u := upload_file_webdav env.localFileExists env.put
              (ops₀ ++ t.1 ++ g.1 ++ u.1, .ok ())

/-- The process exit status of a run: 0 on a normal interpreter end, 1
when an uncaught exception terminated it. -/
def exit_status (r : List Op × Except PyError Unit) : Nat :=
  match r.2 with
  | .ok _ => 0
  | .error _ => 1

/-- A run of `k` slash characters, for stating slash-insensitivity. -/
def slashes (k : Nat) : String :=
  String.mk (List.replicate k '/')

/-- The names `delete_local_backups` deletes out of a descriptor list:
those `name` fields that are present and non-empty. -/
def namedBackups (l : List BackupDescriptor) : List String :=
  l.filterMap fun b =>
    match b.name with
    | some n => if n = "" then none else some n
    | none => none

theorem data_append (s t : String) : (s ++ t).data = s.data ++ t.data := by
  cases s; cases t; rfl

theorem ne_empty_of_data_ne_nil {s : String} (h : s.data ≠ []) : s ≠ "" := by
  intro he
  exact h (congrArg String.data he)

theorem dropWhile_append_of_all {α : Type} {p : α → Bool} {l₁ l₂ : List α}
    (h : ∀ x ∈ l₁, p x = true) :
    List.dropWhile p (l₁ ++ l₂) = List.dropWhile p l₂ := by
  induction l₁ with
  | nil => rfl
  | cons a t ih =>
    have ha : p a = true := h a (List.mem_cons_self a t)
    simp only [List.cons_append, List.dropWhile_cons, ha, if_true]
    exact ih fun x hx => h x (List.mem_cons_of_mem a hx)

theorem dropWhile_append_of_mem {α : Type} {p : α → Bool} {l₁ l₂ : List α}
    (h : ∃ x ∈ l₁, p x = false) :
    List.dropWhile p (l₁ ++ l₂) = List.dropWhile p l₁ ++ l₂ := by
  induction l₁ with
  | nil => obtain ⟨x, hx, _⟩ := h; exact absurd hx (List.not_mem_nil x)
  | cons a t ih =>
    by_cases ha : p a = true
    · simp only [List.cons_append, List.dropWhile_cons, ha, if_true]
      refine ih ?_
      obtain ⟨x, hx, hpx⟩ := h
      rcases List.mem_cons.mp hx with rfl | hxt
      · exact absurd ha (by simp [hpx])
      · exact ⟨x, hxt, hpx⟩
    · have ha' : p a = false := by simpa using ha
      simp [List.cons_append, List.dropWhile_cons, ha']

theorem head?_dropWhile_false {α : Type} {p : α → Bool} :
    ∀ {l : List α} {x : α}, (List.dropWhile p l).head? = some x → p x = false := by
  intro l
  induction l with
  | nil => intro x hx; rw [List.dropWhile_nil] at hx; exact Option.noConfusion hx
  | cons a t ih =>
    intro x hx
    by_cases ha : p a = true
    · exact ih (by simpa [List.dropWhile_cons, ha] using hx)
    · have ha' : p a = false := by simpa using ha
      rw [List.dropWhile_cons, ha'] at hx
      simp at hx
      subst hx
      exact ha'

theorem exists_append_dropWhile {α : Type} (p : α → Bool) :
    ∀ l : List α, ∃ t, l = t ++ List.dropWhile p l := by
  intro l
  induction l with
  | nil => exact ⟨[], rfl⟩
  | cons a t ih =>
    by_cases ha : p a = true
    · obtain ⟨u, hu⟩ := ih
      exact ⟨a :: u, by simpa [List.dropWhile_cons, ha] using congrArg (a :: ·) hu⟩
    · have ha' : p a = false := by simpa using ha
      exact ⟨[], by simp [List.dropWhile_cons, ha']⟩

theorem getLast?_dropWhile_of_ne_nil {α : Type} {p : α → Bool} {l : List α}
    (h : List.dropWhile p l ≠ []) :
    (List.dropWhile p l).getLast? = l.getLast? := by
  obtain ⟨t, ht⟩ := exists_append_dropWhile p l
  conv_rhs => rw [ht]
  rw [List.getLast?_append]
  obtain ⟨y, hy⟩ := Option.isSome_iff_exists.mp (List.getLast?_isSome.mpr h)
  simp [hy]

theorem stripChars_getLast_ne {c x : Char} {l : List Char}
    (h : (stripChars c l).getLast? = some x) : x ≠ c := by
  unfold stripChars at h
  rw [List.getLast?_reverse] at h
  have := head?_dropWhile_false h
  simpa [beq_eq_false_iff_ne] using this

theorem stripChars_head_ne {c x : Char} {l : List Char}
    (h : (stripChars c l).head? = some x) : x ≠ c := by
  unfold stripChars at h
  rw [List.head?_reverse] at h
  have hne : List.dropWhile (· == c) (List.dropWhile (· == c) l).reverse ≠ [] := by
    intro hnil
    rw [hnil] at h
    exact Option.noConfusion h
  rw [getLast?_dropWhile_of_ne_nil hne, List.getLast?_reverse] at h
  have := head?_dropWhile_false h
  simpa [beq_eq_false_iff_ne] using this

theorem stripChars_pad {c : Char} {l : List Char} (h : ∃ x ∈ l, x ≠ c)
    (k₁ k₂ : Nat) :
    stripChars c (List.replicate k₁ c ++ l ++ List.replicate k₂ c)
      = stripChars c l := by
  have hall : ∀ k : Nat, ∀ x ∈ List.replicate k c, (x == c) = true := by
    intro k x hx
    simp [List.eq_of_mem_replicate hx]
  have hmem : ∃ x ∈ l, (x == c) = false := by
    obtain ⟨x, hx, hxc⟩ := h
    exact ⟨x, hx, beq_eq_false_iff_ne.mpr hxc⟩
  unfold stripChars
  rw [List.append_assoc, dropWhile_append_of_all (hall k₁),
    dropWhile_append_of_mem hmem, List.reverse_append, List.reverse_replicate,
    dropWhile_append_of_all (hall k₂)]

theorem pystrip_pad {a : String} (h : ∃ x ∈ a.data, x ≠ '/') (k₁ k₂ : Nat) :
    pystrip '/' (slashes k₁ ++ a ++ slashes k₂) = pystrip '/' a := by
  unfold pystrip
  rw [data_append, data_append]
  exact congrArg String.mk (stripChars_pad h k₁ k₂)

theorem pad_ne_empty {a : String} (h : ∃ x ∈ a.data, x ≠ '/') (k₁ k₂ : Nat) :
    slashes k₁ ++ a ++ slashes k₂ ≠ "" := by
  refine ne_empty_of_data_ne_nil ?_
  rw [data_append, data_append]
  obtain ⟨x, hx, _⟩ := h
  intro hnil
  have : x ∈ ([] : List Char) := by
    rw [← hnil]
    exact List.mem_append_left _ (List.mem_append_right _ hx)
  exact List.not_mem_nil x this

theorem str_ne_empty_of_mem {a : String} (h : ∃ x ∈ a.data, x ≠ '/') :
    a ≠ "" := by
  refine ne_empty_of_data_ne_nil ?_
  obtain ⟨x, hx, _⟩ := h
  intro hnil
  rw [hnil] at hx
  exact List.not_mem_nil x hx

theorem build_url_two {a b : String} (ha : a ≠ "") (hb : b ≠ "") :
    build_url [some a, some b] = pystrip '/' a ++ "/" ++ pystrip '/' b := by
  simp [build_url, cleanPart, ha, hb, joinSlash]

theorem delete_backup_ops (n : String) (o : ReqOutcome Unit) :
    delete_backup n o = [Op.deleteBackup n] := by
  cases o <;> rfl

theorem delete_loop_eq_map (o : String → ReqOutcome Unit) :
    ∀ l : List BackupDescriptor,
      delete_loop o l = (namedBackups l).map Op.deleteBackup := by
  intro l
  induction l with
  | nil => rfl
  | cons b t ih =>
    simp only [namedBackups] at ih ⊢
    cases hb : b.name with
    | none => simp [delete_loop, hb, List.filterMap_cons, ih]
    | some n =>
      by_cases hn : n = ""
      · simp [delete_loop, hb, hn, List.filterMap_cons, ih]
      · simp [delete_loop, hb, hn, List.filterMap_cons, ih, delete_backup_ops]

/-- C1: when the listing of backups fails, `get_local_backups` answers
the `{}` sentinel — and `delete_local_backups` then issues no DELETE, but
it does not complete normally: `len(backups['imports'])` (line 203)
raises `KeyError` on that sentinel, an exception nothing catches. -/
theorem delete_keyError_on_failed_listing (o : String → ReqOutcome Unit) :
    delete_local_backups .exn o
      = ([Op.listBackups], Except.error PyError.keyError) := rfl

/-- C5: `create_backup` answers `None` when the POST raises, and when the
POST succeeds and the re-listed `imports` is non-empty it answers the
`name` field of the first listed descriptor. -/
theorem create_backup_result (relist : ReqOutcome BackupsJson)
    (b : BackupDescriptor) (rest : List BackupDescriptor) :
    (create_backup .exn relist).2 = none
      ∧ (create_backup (.ok ()) (.ok ⟨some (b :: rest)⟩)).2 = b.name :=
  ⟨rfl, rfl⟩

/-- C6: on a successful listing, `delete_local_backups` issues exactly
one DELETE per descriptor whose `name` is present and non-empty, none
for the others, completes normally, and its behavior does not depend on
whether the individual deletions succeed or fail. -/
theorem delete_local_backups_once_per_named (l : List BackupDescriptor)
    (o o' : String → ReqOutcome Unit) :
    delete_local_backups (.ok ⟨some l⟩) o
        = (Op.listBackups :: (namedBackups l).map Op.deleteBackup, Except.ok ())
      ∧ delete_local_backups (.ok ⟨some l⟩) o
        = delete_local_backups (.ok ⟨some l⟩) o' := by
  have key : ∀ o'' : String → ReqOutcome Unit,
      delete_local_backups (.ok ⟨some l⟩) o''
        = (Op.listBackups :: (namedBackups l).map Op.deleteBackup,
            Except.ok ()) := by
    intro o''
    simp [delete_local_backups, get_local_backups, delete_loop_eq_map]
  exact ⟨key o, (key o).trans (key o').symm⟩

/-- C7: `upload_file_webdav` answers `true` exactly when the local file
exists and the PUT status is 200, 201 or 204; when the local file does
not exist it answers `false` without issuing any request. -/
theorem upload_success_iff (fe : Bool) (put : PutOutcome) :
    ((upload_file_webdav fe put).2 = true ↔
        fe = true ∧ (put = .status 200 ∨ put = .status 201 ∨ put = .status 204))
      ∧ (fe = false → upload_file_webdav fe put = ([], false)) := by
  cases fe <;> cases put <;> simp [upload_file_webdav]

/-- C4 (counterexample): `build_url` is not insensitive to leading and
trailing slashes — the segment `"" ++ "/"` (a lone slash) is truthy, so
it survives the falsy-filter, strips to the empty string, and contributes
a stray separator, while the plain `""` segment is skipped. -/
theorem build_url_not_slash_invariant :
    build_url [some ("" ++ slashes 1), some "b"]
      ≠ build_url [some "", some "b"] := by decide

/-- C4 (amended): for segments that contain at least one character other
than `/`, `build_url` is insensitive to leading and trailing slashes,
the result is the two stripped segments with exactly one slash between
them (the stripped segments themselves neither start nor end in a
slash), and a `None` or empty segment leaves the other segment — slash
normalization apart — unchanged. -/
theorem build_url_slash_normalization (a b : String)
    (ha : ∃ x ∈ a.data, x ≠ '/') (hb : ∃ x ∈ b.data, x ≠ '/') :
    (∀ k₁ k₂ k₃ k₄ : Nat,
        build_url [some (slashes k₁ ++ a ++ slashes k₂),
            some (slashes k₃ ++ b ++ slashes k₄)]
          = pystrip '/' a ++ "/" ++ pystrip '/' b)
      ∧ build_url [some a, some b] = pystrip '/' a ++ "/" ++ pystrip '/' b
      ∧ (∀ x, (pystrip '/' a).data.getLast? = some x → x ≠ '/')
      ∧ (∀ x, (pystrip '/' b).data.head? = some x → x ≠ '/')
      ∧ build_url [none, some b] = pystrip '/' b
      ∧ build_url [some a, none] = pystrip '/' a
      ∧ build_url [some "", some b] = pystrip '/' b
      ∧ build_url [some a, some ""] = pystrip '/' a := by
  have ha' := str_ne_empty_of_mem ha
  have hb' := str_ne_empty_of_mem hb
  refine ⟨?_, build_url_two ha' hb', ?_, ?_, ?_, ?_, ?_, ?_⟩
  · intro k₁ k₂ k₃ k₄
    rw [build_url_two (pad_ne_empty ha k₁ k₂) (pad_ne_empty hb k₃ k₄),
      pystrip_pad ha k₁ k₂, pystrip_pad hb k₃ k₄]
  · intro x hx
    exact stripChars_getLast_ne hx
  · intro x hx
    exact stripChars_head_ne hx
  · simp [build_url, cleanPart, hb', joinSlash]
  · simp [build_url, cleanPart, ha', joinSlash]
  · simp [build_url, cleanPart, hb', joinSlash]
  · simp [build_url, cleanPart, ha', joinSlash]

/-- C4 (witness): the amended statement at the concrete segments `"api"`
and `"backups"`. -/
theorem build_url_slash_normalization_witness :
    build_url [some "api", some "backups"]
      = pystrip '/' "api" ++ "/" ++ pystrip '/' "backups" :=
  (build_url_slash_normalization "api" "backups" (by decide) (by decide)).2.1

/-- C10: `build_url` with no arguments, or with arguments that are all
`None` or empty strings, answers the empty string. -/
theorem build_url_falsy_parts (parts : List (Option String))
    (h : ∀ p ∈ parts, p = none ∨ p = some "") :
    build_url parts = "" := by
  have hcl : ∀ ps : List (Option String),
      (∀ p ∈ ps, p = none ∨ p = some "") → ps.filterMap cleanPart = [] := by
    intro ps
    induction ps with
    | nil => intro _; rfl
    | cons a t ih =>
      intro hh
      rcases hh a (List.mem_cons_self a t) with rfl | rfl
      · simpa [List.filterMap_cons, cleanPart] using
          ih fun p hp => hh p (List.mem_cons_of_mem _ hp)
      · simpa [List.filterMap_cons, cleanPart] using
          ih fun p hp => hh p (List.mem_cons_of_mem _ hp)
  by_cases hp : parts.isEmpty
  · simp [build_url, hp]
  · simp [build_url, hp, hcl parts h, joinSlash]

/-- C10 (witness): `build_url` at one `None` and one empty argument. -/
theorem build_url_falsy_parts_witness :
    build_url [none, some ""] = "" :=
  build_url_falsy_parts [none, some ""] (by decide)

/-- An environment in which every stage up to the token fetch succeeds
and the token fetch raises, so `get_backup_token` answers `None`. -/
def tokenFetchFailEnv : Env where
  authToken := some "secret-token"
  health := .ok ()
  listing := .ok ⟨some []⟩
  createPost := .ok ()
  relisting := .ok ⟨some [⟨some "c.zip"⟩]⟩
  tokenResp := .exn
  downloadResp := .ok ⟨none⟩
  now := "2026.01.01.00.00.00"
  localFileExists := true
  put := .status 201
  deleteOutcomes := fun _ => .ok ()

/-- C2 fails on the code: when `get_backup_token` answers `None`, the
orchestrator does not abort — it passes the `None` straight to
`get_backup_file` (line 391), where `mealie.download_url + file_token`
raises a `TypeError` that nothing catches.  No download GET is issued,
but the download step is invoked with the null token and the exception
escapes the run. -/
theorem main_typeError_on_null_token :
    main_run tokenFetchFailEnv
      = ([Op.healthCheck, Op.listBackups, Op.createPost, Op.listBackups,
          Op.tokenFetch "c.zip"], Except.error PyError.typeError) := rfl

/-- An environment whose only unusual feature is the missing
`MEALIE_AUTH_TOKEN` secret. -/
def noTokenEnv : Env where
  authToken := none
  health := .ok ()
  listing := .ok ⟨some []⟩
  createPost := .ok ()
  relisting := .ok ⟨some [⟨some "c.zip"⟩]⟩
  tokenResp := .ok (some "tok123")
  downloadResp := .ok ⟨none⟩
  now := "2026.01.01.00.00.00"
  localFileExists := true
  put := .status 201
  deleteOutcomes := fun _ => .ok ()

/-- An environment in which every stage succeeds except the final upload
PUT, which answers status 507. -/
def uploadFailEnv : Env where
  authToken := some "secret-token"
  health := .ok ()
  listing := .ok ⟨some []⟩
  createPost := .ok ()
  relisting := .ok ⟨some [⟨some "c.zip"⟩]⟩
  tokenResp := .ok (some "tok123")
  downloadResp := .ok ⟨none⟩
  now := "2026.01.01.00.00.00"
  localFileExists := true
  put := .status 507
  deleteOutcomes := fun _ => .ok ()

/-- C3 fails on the code: the script never calls `sys.exit`, so a run
aborted for a missing auth token ends the interpreter normally with exit
status 0, and so does a full run whose upload returns `false`. -/
theorem main_exit_zero_despite_failure :
    exit_status (main_run noTokenEnv) = 0
      ∧ (main_run noTokenEnv).1 = []
      ∧ exit_status (main_run uploadFailEnv) = 0
      ∧ (upload_file_webdav uploadFailEnv.localFileExists uploadFailEnv.put).2
          = false :=
  ⟨rfl, rfl, rfl, rfl⟩

/-- C8: when the auth token is missing or empty the run issues no request
at all, and when the token is present but the health check fails the run
issues only the health GET — no list, delete, create, token-fetch,
download or upload request follows the failed gate, and the interpreter
ends normally. -/
theorem main_gate_stops_pipeline (env : Env) :
    (pytruthy env.authToken = false → main_run env = ([], Except.ok ()))
      ∧ (pytruthy env.authToken = true → env.health = .exn →
          main_run env = ([Op.healthCheck], Except.ok ())) := by
  constructor
  · intro h
    simp [main_run, h]
  · intro h₁ h₂
    simp [main_run, h₁, h₂, health_check]

/-- C9: when the POST succeeds but the re-listing fails (`{}` sentinel)
or reports no imports, `create_backup` answers `None` without raising,
and the orchestrator treats that exactly like a failed create: it never
fetches a token, never downloads, never uploads, and the run cannot die
on the `TypeError` of the null-token path. -/
theorem create_unidentifiable_same_as_failed (env : Env)
    (h : (create_backup env.createPost env.relisting).2 = none) :
    (create_backup (.ok ()) .exn).2 = none
      ∧ (create_backup (.ok ()) (.ok ⟨some []⟩)).2 = none
      ∧ (create_backup (.ok ()) (.ok ⟨none⟩)).2 = none
      ∧ (∀ s, Op.tokenFetch s ∉ (main_run env).1)
      ∧ (∀ s, Op.downloadGet s ∉ (main_run env).1)
      ∧ Op.uploadPut ∉ (main_run env).1
      ∧ (main_run env).2 ≠ Except.error PyError.typeError := by
  refine ⟨rfl, rfl, rfl, ?_⟩
  cases hA : pytruthy env.authToken with
  | false =>
    simp [main_run, hA]
  | true =>
    cases hH : env.health with
    | exn =>
      simp [main_run, hA, hH, health_check]
    | ok u =>
      cases u
      cases hL : env.listing with
      | exn =>
        simp [main_run, hA, hH, health_check, delete_local_backups,
          get_local_backups, hL]
      | ok bj =>
        cases hI : bj.imports with
        | none =>
          simp [main_run, hA, hH, health_check, delete_local_backups,
            get_local_backups, hL, hI]
        | some l =>
          cases hP : env.createPost with
          | exn =>
            simp [main_run, hA, hH, health_check, delete_local_backups,
              get_local_backups, hL, hI, delete_loop_eq_map, create_backup,
              hP, List.mem_map]
          | ok u2 =>
            cases u2
            cases hR : env.relisting with
            | exn =>
              simp [main_run, hA, hH, health_check, delete_local_backups,
                get_local_backups, hL, hI, delete_loop_eq_map, create_backup,
                hP, hR, List.mem_map]
            | ok bj2 =>
              cases hI2 : bj2.imports with
              | none =>
                simp [main_run, hA, hH, health_check, delete_local_backups,
                  get_local_backups, hL, hI, delete_loop_eq_map, create_backup,
                  hP, hR, hI2, List.mem_map]
              | some l2 =>
                cases l2 with
                | nil =>
                  simp [main_run, hA, hH, health_check, delete_local_backups,
                    get_local_backups, hL, hI, delete_loop_eq_map,
                    create_backup, hP, hR, hI2, List.mem_map]
                | cons b2 t2 =>
                  rw [hP, hR] at h
                  simp [create_backup, get_local_backups, hI2] at h
                  simp [main_run, hA, hH, health_check, delete_local_backups,
                    get_local_backups, hL, hI, delete_loop_eq_map,
                    create_backup, hP, hR, hI2, h, List.mem_map]

/-- An environment in which the create POST succeeds but the re-listing
inside `create_backup` fails. -/
def relistFailEnv : Env where
  authToken := some "secret-token"
  health := .ok ()
  listing := .ok ⟨some []⟩
  createPost := .ok ()
  relisting := .exn
  tokenResp := .ok (some "tok123")
  downloadResp := .ok ⟨none⟩
  now := "2026.01.01.00.00.00"
  localFileExists := true
  put := .status 201
  deleteOutcomes := fun _ => .ok ()

/-- C9 (witness): the statement at the concrete environment whose
re-listing fails after a successful POST. -/
theorem create_unidentifiable_same_as_failed_witness :
    (create_backup (.ok ()) .exn).2 = none
      ∧ Op.uploadPut ∉ (main_run relistFailEnv).1 := by
  have hfull := create_unidentifiable_same_as_failed relistFailEnv rfl
  exact ⟨hfull.1, hfull.2.2.2.2.2.1⟩

end MealieBackup
